import Mathlib

/-!
Verification of the RAG demo backend.

Shallow embedding of the repository's core logic:
* `chunk_text` from `backend/utils/pdf_parser.py`
* `embed_chunks_openai` from `backend/main.py` (OpenAI provider abstracted
  as a fallible function returning indexed embeddings)
* `upload_document` from `backend/main.py` (parser, embedding provider and
  ChromaDB `collection.add` abstracted as fallible collaborators)
* `ask_question` from `backend/main.py` (query embedding, ChromaDB
  `collection.query` and the chat-completion call abstracted likewise)

Strings that the Python code slices character-by-character are modelled as
`List Char`; Python's `text[i:i+n]` is `(text.drop i).take n`, and
`int(max_chunk_len * 0.75)` is the exact natural-number division
`maxLen * 3 / 4` (0.75 is a dyadic rational, so the float product and
truncation agree with floor for all realistic lengths).
-/

/-- Model of `chunk_text` from `backend/utils/pdf_parser.py`:
`stride = int(max_chunk_len * 0.75)`, then
`for i in range(0, len(text), stride): chunk = text[i:i+max_chunk_len];
if chunk: chunks.append(chunk)`.
Python's `range(0, n, s)` (for `s ≥ 1`) is the list
`[0, s, 2*s, ...]` of the `⌈n/s⌉ = (n + s - 1)/s` multiples of `s` below
`n`; the trailing `if chunk:` is the filter keeping non-empty slices. -/
def chunk_text (text : List Char) (max_chunk_len : Nat := 500) : List (List Char) :=
  let stride := max_chunk_len * 3 / 4
  (((List.range ((text.length + stride - 1) / stride)).map
      (fun i => (text.drop (i * stride)).take max_chunk_len)).filter
    (fun c => !c.isEmpty))

/-- For `s ≥ 1`, every index `k` below `⌈L/s⌉` yields an offset `k*s < L`
(the loop guard of `range(0, L, s)`). -/
theorem offset_lt_of_lt_ceil {L s k : Nat} (hs : 0 < s)
    (hk : k < (L + s - 1) / s) : k * s < L := by
  have h1 : (k + 1) * s ≤ ((L + s - 1) / s) * s :=
    Nat.mul_le_mul_right s hk
  have h2 : ((L + s - 1) / s) * s ≤ L + s - 1 := Nat.div_mul_le_self _ _
  have h3 : (k + 1) * s = k * s + s := by ring
  have h4 : k * s + s ≤ L + s - 1 := by omega
  omega

/-- For `s ≥ 1`, the offsets of `range(0, L, s)` go far enough:
`⌈L/s⌉ * s ≥ L`. -/
theorem le_ceil_mul {L s : Nat} (hs : 0 < s) :
    L ≤ ((L + s - 1) / s) * s := by
  have h1 : (L + s - 1) / s < (L + s - 1) / s + 1 := Nat.lt_succ_self _
  have h2 : L + s - 1 < ((L + s - 1) / s + 1) * s :=
    (Nat.div_lt_iff_lt_mul hs).mp h1
  have h3 : ((L + s - 1) / s + 1) * s = ((L + s - 1) / s) * s + s := by ring
  omega

/-- Every window the loop generates starts at an offset `< len(text)` and
so is non-empty: the `if chunk:` filter in `chunk_text` keeps everything,
and the chunk list is exactly the map over the offsets. -/
theorem chunk_text_eq_map (T : List Char) (M : Nat) (hM : 2 ≤ M) :
    chunk_text T M
      = (List.range ((T.length + M * 3 / 4 - 1) / (M * 3 / 4))).map
          (fun i => (T.drop (i * (M * 3 / 4))).take M) := by
  have hs : 0 < M * 3 / 4 := by omega
  unfold chunk_text
  rw [List.filter_eq_self]
  intro c hc
  rcases List.mem_map.mp hc with ⟨k, hk, rfl⟩
  have hklt : k < (T.length + M * 3 / 4 - 1) / (M * 3 / 4) :=
    List.mem_range.mp hk
  have hoff : k * (M * 3 / 4) < T.length := offset_lt_of_lt_ceil hs hklt
  have hlen : ((T.drop (k * (M * 3 / 4))).take M).length
      = min M (T.length - k * (M * 3 / 4)) := by
    rw [List.length_take, List.length_drop]
  have hpos : 0 < ((T.drop (k * (M * 3 / 4))).take M).length := by omega
  simp only [Bool.not_eq_true']
  rw [List.isEmpty_eq_false]
  exact List.ne_nil_of_length_pos hpos

/-- Joining the first `s` characters of each window `T[k*s : k*s + ?]`
for `k < N` reconstructs the first `N*s` characters of `T`. -/
theorem flatten_map_take {α : Type} (s : Nat) :
    ∀ (N : Nat) (T : List α),
      ((List.range N).map (fun k => (T.drop (k * s)).take s)).flatten
        = T.take (N * s) := by
  intro N
  induction N with
  | zero => intro T; simp
  | succ n ih =>
    intro T
    rw [List.range_succ, List.map_append, List.flatten_append]
    simp only [List.map_cons, List.map_nil, List.flatten_cons, List.flatten_nil,
      List.append_nil]
    rw [ih, Nat.succ_mul, List.take_add]

/-- Any text of exactly 1200 characters chunked with `max_chunk_len = 500`
yields four windows of lengths 500, 500, 450, 75: the loop offsets are
0, 375, 750 and 1125, and all four slices are non-empty. -/
theorem chunk_text_len_1200 (T : List Char) (hT : T.length = 1200) :
    (chunk_text T 500).map List.length = [500, 500, 450, 75] := by
  have rep := chunk_text_eq_map T 500 (by norm_num)
  rw [rep, hT]
  have h4 : (1200 + 500 * 3 / 4 - 1) / (500 * 3 / 4) = 4 := by norm_num
  rw [h4, show List.range 4 = [0, 1, 2, 3] from rfl]
  simp [List.length_take, List.length_drop, hT]

/-- C1: for every text `T` and `max_len M ≥ 2` with `stride = ⌊M * 0.75⌋`,
`chunk_text` produces the windows `T[k*stride : k*stride + M]` for
`k = 0, 1, ..., ⌈|T|/stride⌉ - 1`; each pair of consecutive windows other
than the final pair overlaps in exactly `M - stride` characters (the
`M - stride`-character suffix of window `k` is the `M - stride`-character
prefix of window `k+1`); and concatenating the windows with the overlaps
removed (keeping the first `stride` characters of every window)
reconstructs `T`. -/
theorem chunk_windows_overlap_reconstruct (T : List Char) (M s : Nat)
    (hM : 2 ≤ M) (hs : s = M * 3 / 4) :
    chunk_text T M
      = (List.range ((T.length + s - 1) / s)).map
          (fun i => (T.drop (i * s)).take M)
    ∧ (∀ k, k + 2 < (chunk_text T M).length →
        min (k * s + M) T.length - (k + 1) * s = M - s
        ∧ ((T.drop (k * s)).take M).drop s
            = ((T.drop ((k + 1) * s)).take M).take (M - s))
    ∧ ((chunk_text T M).map (fun c => c.take s)).flatten = T := by
  subst hs
  have rep := chunk_text_eq_map T M hM
  have hs1 : 0 < M * 3 / 4 := by omega
  have hsM : M * 3 / 4 ≤ M := by omega
  have hM2s : M ≤ 2 * (M * 3 / 4) := by omega
  have hlen : (chunk_text T M).length
      = (T.length + M * 3 / 4 - 1) / (M * 3 / 4) := by
    rw [rep, List.length_map, List.length_range]
  refine ⟨rep, ?_, ?_⟩
  · intro k hk
    rw [hlen] at hk
    have hfull : k * (M * 3 / 4) + M ≤ T.length := by
      have h1 : (k + 2) * (M * 3 / 4)
          ≤ ((T.length + M * 3 / 4 - 1) / (M * 3 / 4) - 1) * (M * 3 / 4) :=
        Nat.mul_le_mul_right _ (by omega)
      have h2 : ((T.length + M * 3 / 4 - 1) / (M * 3 / 4) - 1) * (M * 3 / 4)
          < T.length :=
        offset_lt_of_lt_ceil hs1 (by omega)
      have h3 : (k + 2) * (M * 3 / 4) = k * (M * 3 / 4) + 2 * (M * 3 / 4) := by
        ring
      omega
    constructor
    · have h5 : (k + 1) * (M * 3 / 4) = k * (M * 3 / 4) + M * 3 / 4 := by ring
      omega
    · rw [List.drop_take, List.drop_drop, List.take_take]
      have h5 : k * (M * 3 / 4) + M * 3 / 4 = (k + 1) * (M * 3 / 4) := by ring
      have h6 : min (M - M * 3 / 4) M = M - M * 3 / 4 := by omega
      rw [h5, h6]
  · rw [rep, List.map_map]
    have hcomp : (fun c => List.take (M * 3 / 4) c)
          ∘ (fun i => (T.drop (i * (M * 3 / 4))).take M)
        = fun i => (T.drop (i * (M * 3 / 4))).take (M * 3 / 4) := by
      funext i
      simp only [Function.comp_apply]
      rw [List.take_take]
      congr 1
      omega
    rw [hcomp, flatten_map_take]
    exact List.take_of_length_le (le_ceil_mul hs1)

/-- C1 witness: the text `"abcdefgh"` with `M = 4`, `stride = 3` chunks to
`["abcd", "defg", "gh"]`; windows sit at offsets 0, 3, 6, the first two
windows overlap in exactly one character, and keeping three characters of
each window reconstructs the text. -/
theorem chunk_windows_overlap_reconstruct_witness :
    (chunk_text "abcdefgh".toList 4
      = (List.range (("abcdefgh".toList.length + 3 - 1) / 3)).map
          (fun i => ("abcdefgh".toList.drop (i * 3)).take 4))
    ∧ (min (0 * 3 + 4) "abcdefgh".toList.length - (0 + 1) * 3 = 4 - 3
       ∧ (("abcdefgh".toList.drop (0 * 3)).take 4).drop 3
           = (("abcdefgh".toList.drop ((0 + 1) * 3)).take 4).take (4 - 3))
    ∧ ((chunk_text "abcdefgh".toList 4).map (fun c => c.take 3)).flatten
        = "abcdefgh".toList := by
  have h := chunk_windows_overlap_reconstruct "abcdefgh".toList 4 3
    (by norm_num) (by norm_num)
  exact ⟨h.1, h.2.1 0 (by decide), h.2.2⟩

/-- C2 counterexample: the two-character text `"ab"` with `M = 2` has
`length ≤ M`, yet `chunk_text` returns two windows `["ab", "b"]` (stride
is 1, so a second, clipped window starts at offset 1), not the single
window `["ab"]` the claim predicts. -/
theorem chunk_text_single_window_cex :
    (['a', 'b'] : List Char).length ≤ 2
    ∧ chunk_text ['a', 'b'] 2 ≠ [['a', 'b']]
    ∧ chunk_text ['a', 'b'] 2 = [['a', 'b'], ['b']] := by decide

/-- C2 amended: for `M ≥ 2`, a non-empty text no longer than the stride
`⌊M * 0.75⌋` (not merely no longer than `M`) chunks to exactly one window,
the whole text. -/
theorem chunk_text_single_window (T : List Char) (M s : Nat)
    (hM : 2 ≤ M) (hs : s = M * 3 / 4)
    (h1 : 0 < T.length) (h2 : T.length ≤ s) :
    chunk_text T M = [T] := by
  subst hs
  have rep := chunk_text_eq_map T M hM
  have hN : (T.length + M * 3 / 4 - 1) / (M * 3 / 4) = 1 :=
    Nat.div_eq_of_lt_le (by omega) (by omega)
  rw [rep, hN, show List.range 1 = [0] from rfl, List.map_singleton,
    Nat.zero_mul, List.drop_zero, List.take_of_length_le (by omega)]

/-- C2 amended witness: `"xy"` with `M = 4` (stride 3) yields the single
window `["xy"]`. -/
theorem chunk_text_single_window_witness :
    chunk_text ['x', 'y'] 4 = [['x', 'y']] :=
  chunk_text_single_window ['x', 'y'] 4 3 (by norm_num) (by norm_num)
    (by decide) (by decide)

/-- C10: for every non-empty text and `M ≥ 2`, `chunk_text` returns
exactly `⌈|T| / stride⌉` windows (the count `N` satisfies the ceiling
characterisation `|T| ≤ N * stride` and `(N-1) * stride < |T|`), and every
window is non-empty, so the `if chunk:` branch never drops anything. -/
theorem chunk_text_count_ceil (T : List Char) (M s : Nat)
    (hT : T ≠ []) (hM : 2 ≤ M) (hs : s = M * 3 / 4) :
    (chunk_text T M).length = (T.length + s - 1) / s
    ∧ T.length ≤ (chunk_text T M).length * s
    ∧ ((chunk_text T M).length - 1) * s < T.length
    ∧ ∀ c ∈ chunk_text T M, c ≠ [] := by
  subst hs
  have rep := chunk_text_eq_map T M hM
  have hs1 : 0 < M * 3 / 4 := by omega
  have hL : 0 < T.length := List.length_pos.mpr hT
  have hlen : (chunk_text T M).length
      = (T.length + M * 3 / 4 - 1) / (M * 3 / 4) := by
    rw [rep, List.length_map, List.length_range]
  have hup := le_ceil_mul (L := T.length) hs1
  have hN1 : 0 < (T.length + M * 3 / 4 - 1) / (M * 3 / 4) := by
    rcases Nat.eq_zero_or_pos ((T.length + M * 3 / 4 - 1) / (M * 3 / 4)) with h | h
    · rw [h] at hup; omega
    · exact h
  refine ⟨hlen, ?_, ?_, ?_⟩
  · rw [hlen]; exact hup
  · rw [hlen]
    exact offset_lt_of_lt_ceil hs1 (by omega)
  · intro c hc
    unfold chunk_text at hc
    have h := List.of_mem_filter hc
    simpa using h

/-- C10 witness: `"abc"` with `M = 2` (stride 1) yields three windows
`["ab", "bc", "c"]`, which is `⌈3/1⌉`, and the first window is
non-empty. -/
theorem chunk_text_count_ceil_witness :
    (chunk_text ['a', 'b', 'c'] 2).length = ((['a', 'b', 'c'] : List Char).length + 1 - 1) / 1
    ∧ (['a', 'b', 'c'] : List Char).length ≤ (chunk_text ['a', 'b', 'c'] 2).length * 1
    ∧ ((chunk_text ['a', 'b', 'c'] 2).length - 1) * 1 < (['a', 'b', 'c'] : List Char).length
    ∧ (['a', 'b'] : List Char) ≠ [] := by
  have h := chunk_text_count_ceil ['a', 'b', 'c'] 2 1
    (by decide) (by norm_num) (by norm_num)
  exact ⟨h.1, h.2.1, h.2.2.1, h.2.2.2 ['a', 'b'] (by decide)⟩

/-- A value stored in a ChromaDB metadata dict: the code stores strings
(`filename`, `doc_id`) and an integer (`chunk_id`). -/
inductive MetaValue where
  | str : String → MetaValue
  | nat : Nat → MetaValue
deriving DecidableEq, Repr

/-- The argument of the single bulk `collection.add(embeddings=..,
documents=.., metadatas=.., ids=..)` call in `upload_document`
(`backend/main.py`). Metadata dicts are modelled as association lists of
string keys, matching the Python dict literal on line 105. -/
structure StoreCall (V : Type) where
  ids : List String
  embeddings : List V
  documents : List (List Char)
  metadatas : List (List (String × MetaValue))
deriving DecidableEq

/-- The JSON body `upload_document` returns on success. -/
structure UploadReport where
  filename : String
  filetype : String
  num_chunks : Nat
  doc_id : String
  chunk_preview : List (List Char)
deriving DecidableEq

/-- How one call of the `/upload/` handler terminates: a success body, a
raised `HTTPException(status_code, detail)`, or an exception that escapes
the handler untranslated (no surrounding `try`/`except`). -/
inductive UploadOutcome (V : Type) where
  | success : UploadReport → UploadOutcome V
  | httpError : Nat → String → UploadOutcome V
  | uncaught : String → UploadOutcome V
deriving DecidableEq

/-- Whether an upload outcome is a translated, user-facing error
(`HTTPException`) as opposed to a success or an escaped exception. -/
def isTranslatedError {V : Type} : UploadOutcome V → Bool
  | UploadOutcome.httpError _ _ => true
  | _ => false

/-- Result of one `/upload/` call: the outcome, how many embedding-API
batch requests were issued, and the bulk store write, if one completed. -/
structure UploadResult (V : Type) where
  outcome : UploadOutcome V
  embedCalls : Nat
  stored : Option (StoreCall V)
deriving DecidableEq

/-- Comparison used to model `sorted(response.data, key=lambda x: x.index)`
in `embed_chunks_openai`: order index/embedding pairs by the
provider-assigned index. -/
def idxLe {V : Type} (a b : Nat × V) : Prop := a.1 ≤ b.1

instance {V : Type} : DecidableRel (idxLe (V := V)) :=
  fun a b => inferInstanceAs (Decidable (a.1 ≤ b.1))

instance {V : Type} : IsTotal (Nat × V) idxLe :=
  ⟨fun a b => Nat.le_total a.1 b.1⟩

instance {V : Type} : IsTrans (Nat × V) idxLe :=
  ⟨fun _ _ _ => Nat.le_trans⟩

/-- Model of `sorted(response.data, key=lambda x: x.index)`: a stable sort of the
provider's response items by their provider-assigned index. -/
def sortByIndex {V : Type} (l : List (Nat × V)) : List (Nat × V) :=
  l.insertionSort idxLe

/-- Batching `chunks[i:i+20]` for `i in range(0, len(chunks), 20)`: the input split
into consecutive batches of at most 20 texts. -/
def batchesOf {T : Type} (n : Nat) (l : List T) : List (List T) :=
  (List.range ((l.length + (n - 1)) / n)).map
    (fun b => (l.drop (b * n)).take n)

/-- The batch loop of `embed_chunks_openai`: issue one provider request
per batch; on the first failing request the exception propagates (the
loop aborts, keeping no partial results).  Each successful response is
re-sorted by the provider-assigned index (`sorted(..., key=x.index)`) and
its embeddings are appended in batch order.  Also returns the number of
provider requests issued. -/
def embedBatches {T V : Type}
    (provider : List T → Except String (List (Nat × V))) :
    List (List T) → Except String (List V) × Nat
  | [] => (Except.ok [], 0)
  | b :: rest =>
    match provider b with
    | Except.error e => (Except.error e, 1)
    | Except.ok resp =>
      match embedBatches provider rest with
      | (Except.ok vs, n) =>
        (Except.ok (((sortByIndex resp).map Prod.snd) ++ vs), n + 1)
      | (Except.error e, n) => (Except.error e, n + 1)

/-- Model of `embed_chunks_openai` from `backend/main.py`: fails immediately when
no API key is configured (`raise RuntimeError("OpenAI API Key not
set!")`); otherwise embeds the texts in batches of at most 20. The remote
`openai.embeddings.create` call is abstracted as `provider`, returning
(provider-assigned index, embedding) pairs in an arbitrary order. -/
def embed_chunks_openai {T V : Type} (apiKeySet : Bool)
    (provider : List T → Except String (List (Nat × V)))
    (chunks : List T) : Except String (List V) × Nat :=
  if apiKeySet then embedBatches provider (batchesOf 20 chunks)
  else (Except.error "OpenAI API Key not set!", 0)

/-- Python's `str.endswith`, checked on the underlying character list
(Lean's builtin `String.endsWith` is not kernel-reducible, so the suffix
test of `filename.endswith('.pdf')` is modelled via `List.isSuffixOf`). -/
def endswith (s suffix : String) : Bool := suffix.data.isSuffixOf s.data

/-- Model of `upload_document` from `backend/main.py`, with the collaborators
abstracted: `parse` is the PDF/TXT text extraction (already selected by
extension), `provider` the embedding API, `store` the ChromaDB
`collection.add`. Mirrors the handler exactly: extension check, API-key
check, parse (translated to 400 on failure), chunking with
`chunk_text(text)` (default `max_chunk_len = 500`), the empty-chunks 400,
embedding (translated to 500 on failure), then the bulk store write.
The store call is NOT wrapped in `try`/`except` in the source, so a store
failure becomes an uncaught exception, not an `HTTPException`. -/
def upload_document {V : Type} (apiKeySet : Bool) (filename docId : String)
    (parse : Except String (List Char))
    (provider : List (List Char) → Except String (List (Nat × V)))
    (store : StoreCall V → Except String Unit) : UploadResult V :=
  if endswith filename ".pdf" || endswith filename ".txt" then
    if apiKeySet then
      match parse with
      | Except.error e =>
        ⟨UploadOutcome.httpError 400 ("File parsing failed: " ++ e), 0, none⟩
      | Except.ok text =>
        let filetype := if endswith filename ".pdf" then "pdf" else "txt"
        let chunks := chunk_text text 500
        if chunks.isEmpty then
          ⟨UploadOutcome.httpError 400 "No text found to index.", 0, none⟩
        else
          match embed_chunks_openai apiKeySet provider chunks with
          | (Except.error e, n) =>
            ⟨UploadOutcome.httpError 500 ("Embedding failed: " ++ e), n, none⟩
          | (Except.ok embeddings, n) =>
            let call : StoreCall V :=
              ⟨(List.range chunks.length).map
                  (fun i => docId ++ "_chunk_" ++ toString i),
               embeddings, chunks,
               (List.range chunks.length).map
                  (fun i => [("filename", MetaValue.str filename),
                             ("doc_id", MetaValue.str docId),
                             ("chunk_id", MetaValue.nat i)])⟩
            match store call with
            | Except.error e => ⟨UploadOutcome.uncaught e, n, none⟩
            | Except.ok _ =>
              ⟨UploadOutcome.success
                ⟨filename, filetype, chunks.length, docId,
                 if 3 < chunks.length then chunks.take 3 else chunks⟩,
               n, some call⟩
    else
      ⟨UploadOutcome.httpError 500
        "OpenAI API key environment variable not set.", 0, none⟩
  else
    ⟨UploadOutcome.httpError 400 "Only PDF and TXT files are supported.",
     0, none⟩

/-- The JSON body `ask_question` returns on success. -/
structure AskResult where
  answer : String
  evidence : List String
  llm_context : String
  message : String
deriving DecidableEq

/-- How one call of the `/ask/` handler terminates: every failure path in
`ask_question` is wrapped in `try`/`except` and re-raised as an
`HTTPException`, so there is no uncaught constructor here. -/
inductive AskOutcome where
  | success : AskResult → AskOutcome
  | httpError : Nat → String → AskOutcome
deriving DecidableEq

/-- The prompt template assembled in `ask_question` (`backend/main.py`
lines 156-160): fixed instruction text, the context block, the question,
and the trailing answer cue, in this order. -/
def ragPrompt (context query : String) : String :=
  "You are an expert assistant. Given the following context chunks (from user files) and a question, give a concise answer based strictly on the context. Cite text by quoting or listing sources if helpful.\n\nContext Chunks:\n"
    ++ context ++ "\n\nQuestion:\n" ++ query ++ "\n\nAnswer:"

/-- Model of `ask_question` from `backend/main.py`: embed the question as
a one-element batch (failures, including an empty embedding list, are
caught and mapped to 500), run the ChromaDB similarity query (`search`,
abstracting `collection.query` plus the `results["documents"][0]`
projection), join the retrieved chunk texts with `"\n---\n"`, assemble
the prompt, call the chat model (`llm`), and return the trimmed answer,
the evidence list and the prompt. -/
def ask_question {V : Type} (apiKeySet : Bool) (query : String)
    (provider : List String → Except String (List (Nat × V)))
    (search : V → Except String (List String))
    (llm : String → Except String String) : AskOutcome :=
  if apiKeySet then
    match (embed_chunks_openai apiKeySet provider [query]).1 with
    | Except.error e => AskOutcome.httpError 500 ("Embedding failed: " ++ e)
    | Except.ok embs =>
      match embs.head? with
      | none =>
        AskOutcome.httpError 500 "Embedding failed: list index out of range"
      | some query_emb =>
        match search query_emb with
        | Except.error e =>
          AskOutcome.httpError 500 ("Vector DB query failed: " ++ e)
        | Except.ok top_chunks =>
          let prompt := ragPrompt (String.intercalate "\n---\n" top_chunks) query
          match llm prompt with
          | Except.error e =>
            AskOutcome.httpError 500 ("LLM call failed: " ++ e)
          | Except.ok content =>
            AskOutcome.success ⟨content.trim, top_chunks, prompt,
              "Answer generated using retrieved context."⟩
  else
    AskOutcome.httpError 500 "OpenAI API key environment variable not set."

/-- When every collaborator succeeds, `upload_document` returns the
success report and performs exactly one bulk store write whose parallel
arrays are the chunk ids, embeddings, chunk texts, and metadata dicts
built on lines 104-111 of `backend/main.py`. -/
theorem upload_document_success {V : Type} (fname docId : String)
    (text : List Char)
    (provider : List (List Char) → Except String (List (Nat × V)))
    (store : StoreCall V → Except String Unit) (embs : List V) (n : Nat)
    (hname : (endswith fname ".pdf" || endswith fname ".txt") = true)
    (hchunks : chunk_text text 500 ≠ [])
    (hembed : embed_chunks_openai true provider (chunk_text text 500)
      = (Except.ok embs, n))
    (hstore : ∀ c, store c = Except.ok ()) :
    upload_document true fname docId (Except.ok text) provider store
      = ⟨UploadOutcome.success
          ⟨fname, (if endswith fname ".pdf" then "pdf" else "txt"),
           (chunk_text text 500).length, docId,
           (if 3 < (chunk_text text 500).length then (chunk_text text 500).take 3
            else chunk_text text 500)⟩,
         n,
         some ⟨(List.range (chunk_text text 500).length).map
                  (fun i => docId ++ "_chunk_" ++ toString i),
               embs, chunk_text text 500,
               (List.range (chunk_text text 500).length).map
                  (fun i => [("filename", MetaValue.str fname),
                             ("doc_id", MetaValue.str docId),
                             ("chunk_id", MetaValue.nat i)])⟩⟩ := by
  have hni : (chunk_text text 500).isEmpty = false :=
    List.isEmpty_eq_false.mpr hchunks
  unfold upload_document
  rw [hname]
  simp only [if_true, hni, Bool.false_eq_true, if_false, hembed, hstore]

set_option maxRecDepth 10000 in
/-- C3 counterexample: a 1200-character text chunked with `max_len = 500`
produces 4 windows, not 3, and their lengths are not `[500, 500, 200]`:
the loop `range(0, 1200, 375)` also starts a window at offset 1125. -/
theorem chunk_1200_three_chunks_cex :
    (chunk_text (List.replicate 1200 'a') 500).length = 4
    ∧ (chunk_text (List.replicate 1200 'a') 500).length ≠ 3
    ∧ (chunk_text (List.replicate 1200 'a') 500).map List.length
        ≠ [500, 500, 200] := by decide

/-- C3 amended: a 1200-character text chunked with `max_len = 500` yields
exactly 4 windows of lengths `[500, 500, 450, 75]`, and a successful
ingestion of such a document reports `num_chunks = 4`. -/
theorem chunk_1200_four_chunks {V : Type} (T : List Char)
    (fname docId : String)
    (provider : List (List Char) → Except String (List (Nat × V)))
    (store : StoreCall V → Except String Unit) (embs : List V) (n : Nat)
    (hT : T.length = 1200)
    (hpdf : endswith fname ".pdf" = false)
    (htxt : endswith fname ".txt" = true)
    (hembed : embed_chunks_openai true provider (chunk_text T 500)
      = (Except.ok embs, n))
    (hstore : ∀ c, store c = Except.ok ()) :
    (chunk_text T 500).map List.length = [500, 500, 450, 75]
    ∧ (chunk_text T 500).length = 4
    ∧ (upload_document true fname docId (Except.ok T) provider store).outcome
        = UploadOutcome.success ⟨fname, "txt", 4, docId, (chunk_text T 500).take 3⟩ := by
  have hmap := chunk_text_len_1200 T hT
  have hlen4 : (chunk_text T 500).length = 4 := by
    have h := congrArg List.length hmap
    simpa using h
  have hchunks : chunk_text T 500 ≠ [] := by
    intro h
    rw [h] at hlen4
    simp at hlen4
  have hname : (endswith fname ".pdf" || endswith fname ".txt") = true := by
    rw [hpdf, htxt]
    rfl
  have hsucc := upload_document_success fname docId T provider store embs n
    hname hchunks hembed hstore
  refine ⟨hmap, hlen4, ?_⟩
  rw [hsucc]
  simp [hpdf, hlen4]

set_option maxRecDepth 10000 in
/-- C3 amended witness: uploading a concrete 1200-character text file
with succeeding collaborators reports 4 chunks of lengths 500, 500, 450
and 75. -/
theorem chunk_1200_four_chunks_witness :
    (chunk_text (List.replicate 1200 'a') 500).map List.length
        = [500, 500, 450, 75]
    ∧ (chunk_text (List.replicate 1200 'a') 500).length = 4
    ∧ (upload_document true "resume.txt" "d"
          (Except.ok (List.replicate 1200 'a'))
          (fun b => Except.ok ((List.range b.length).map (fun i => (i, (0 : Nat)))))
          (fun _ => Except.ok ())).outcome
        = UploadOutcome.success
            ⟨"resume.txt", "txt", 4, "d",
             (chunk_text (List.replicate 1200 'a') 500).take 3⟩ :=
  chunk_1200_four_chunks (List.replicate 1200 'a') "resume.txt" "d"
    (fun b => Except.ok ((List.range b.length).map (fun i => (i, (0 : Nat)))))
    (fun _ => Except.ok ()) [0, 0, 0, 0] 1
    (by decide) (by decide) (by decide) rfl (fun _ => rfl)

/-- C4 counterexample: at a concrete successful ingestion the stored
metadata dict of the only record has no `"chunk_index"` key at all — the
code writes the key `"chunk_id"` (`backend/main.py` line 105) — so the
lookup yields `none` instead of the claimed index value. -/
theorem metadata_chunk_index_key_cex :
    ((upload_document (V := Nat) true "r.txt" "d" (Except.ok ['h', 'i'])
        (fun _ => Except.ok [(0, 7)]) (fun _ => Except.ok ())).stored.map
      (fun c => c.metadatas.map (fun m => m.lookup "chunk_index")))
      = some [none]
    ∧ (some [none] : Option (List (Option MetaValue)))
        ≠ some [some (MetaValue.nat 0)] := by decide

/-- C4 amended: a successful ingestion of a document with `N` chunks
writes exactly `N` records in one bulk call, with ids
`"{doc_id}_chunk_0" … "{doc_id}_chunk_{N-1}"` in order, the chunk texts
and embeddings in the same order, and the i-th metadata dict equal to
`{"filename": filename, "doc_id": doc_id, "chunk_id": i}` (the index key
is named `chunk_id`, not `chunk_index`). -/
theorem upload_stores_chunk_records {V : Type} (fname docId : String)
    (text : List Char)
    (provider : List (List Char) → Except String (List (Nat × V)))
    (store : StoreCall V → Except String Unit) (embs : List V) (n : Nat)
    (hname : (endswith fname ".pdf" || endswith fname ".txt") = true)
    (hchunks : chunk_text text 500 ≠ [])
    (hembed : embed_chunks_openai true provider (chunk_text text 500)
      = (Except.ok embs, n))
    (hstore : ∀ c, store c = Except.ok ()) :
    (upload_document true fname docId (Except.ok text) provider store).stored
      = some ⟨(List.range (chunk_text text 500).length).map
                 (fun i => docId ++ "_chunk_" ++ toString i),
              embs, chunk_text text 500,
              (List.range (chunk_text text 500).length).map
                 (fun i => [("filename", MetaValue.str fname),
                            ("doc_id", MetaValue.str docId),
                            ("chunk_id", MetaValue.nat i)])⟩
    ∧ ((upload_document true fname docId (Except.ok text) provider store).stored.map
        (fun c => c.ids.length)) = some (chunk_text text 500).length
    ∧ ((upload_document true fname docId (Except.ok text) provider store).stored.map
        (fun c => c.metadatas.length)) = some (chunk_text text 500).length := by
  rw [upload_document_success fname docId text provider store embs n
    hname hchunks hembed hstore]
  refine ⟨rfl, ?_, ?_⟩ <;> simp

/-- C4 amended witness: ingesting the two-character text `"hi"` (one
chunk) writes one record with id `"d_chunk_0"`, the chunk text, and the
metadata dict keyed `filename`/`doc_id`/`chunk_id`. -/
theorem upload_stores_chunk_records_witness :
    (upload_document (V := Nat) true "r.txt" "d" (Except.ok ['h', 'i'])
        (fun _ => Except.ok [(0, 7)]) (fun _ => Except.ok ())).stored
      = some ⟨(List.range (chunk_text ['h', 'i'] 500).length).map
                 (fun i => "d" ++ "_chunk_" ++ toString i),
              [7], chunk_text ['h', 'i'] 500,
              (List.range (chunk_text ['h', 'i'] 500).length).map
                 (fun i => [("filename", MetaValue.str "r.txt"),
                            ("doc_id", MetaValue.str "d"),
                            ("chunk_id", MetaValue.nat i)])⟩
    ∧ ((upload_document (V := Nat) true "r.txt" "d" (Except.ok ['h', 'i'])
        (fun _ => Except.ok [(0, 7)]) (fun _ => Except.ok ())).stored.map
        (fun c => c.ids.length)) = some (chunk_text ['h', 'i'] 500).length
    ∧ ((upload_document (V := Nat) true "r.txt" "d" (Except.ok ['h', 'i'])
        (fun _ => Except.ok [(0, 7)]) (fun _ => Except.ok ())).stored.map
        (fun c => c.metadatas.length)) = some (chunk_text ['h', 'i'] 500).length :=
  upload_stores_chunk_records "r.txt" "d" ['h', 'i']
    (fun _ => Except.ok [(0, 7)]) (fun _ => Except.ok ()) [7] 1
    (by decide) (by decide) rfl (fun _ => rfl)

/-- C6 counterexample: at a concrete ingestion where the bulk store write
fails, the failure is NOT translated into a user-facing `HTTPException`:
the `collection.add` call on lines 106-111 of `backend/main.py` is not
wrapped in `try`/`except`, so the exception escapes the handler
untranslated. -/
theorem store_failure_uncaught_cex :
    (upload_document (V := Nat) true "r.txt" "d" (Except.ok ['h', 'i'])
        (fun _ => Except.ok [(0, 7)]) (fun _ => Except.error "disk full")).outcome
      = UploadOutcome.uncaught "disk full"
    ∧ isTranslatedError
        (upload_document (V := Nat) true "r.txt" "d" (Except.ok ['h', 'i'])
          (fun _ => Except.ok [(0, 7)]) (fun _ => Except.error "disk full")).outcome
      = false := by decide

/-- C6 amended: parsing failures and embedding failures inside the
ingestion pipeline are caught and translated into user-facing
`HTTPException`s whose messages name the failing stage (`"File parsing
failed: …"` with status 400, `"Embedding failed: …"` with status 500),
and nothing is stored; but a vector-store bulk-insert failure is NOT
caught at the pipeline boundary: it escapes the handler as an
untranslated exception (no `HTTPException`, no stage message), with
nothing durably stored. -/
theorem upload_error_translation {V : Type} (fname docId : String)
    (text : List Char) (ePar eEmb eSt : String)
    (provider_ok provider_bad : List (List Char) → Except String (List (Nat × V)))
    (store_bad : StoreCall V → Except String Unit)
    (embs : List V) (n n2 : Nat)
    (hname : (endswith fname ".pdf" || endswith fname ".txt") = true)
    (hchunks : chunk_text text 500 ≠ [])
    (hpe : embed_chunks_openai true provider_bad (chunk_text text 500)
      = (Except.error eEmb, n2))
    (hembed : embed_chunks_openai true provider_ok (chunk_text text 500)
      = (Except.ok embs, n))
    (hsb : ∀ c, store_bad c = Except.error eSt) :
    upload_document true fname docId (Except.error ePar) provider_ok store_bad
      = ⟨UploadOutcome.httpError 400 ("File parsing failed: " ++ ePar), 0, none⟩
    ∧ upload_document true fname docId (Except.ok text) provider_bad store_bad
      = ⟨UploadOutcome.httpError 500 ("Embedding failed: " ++ eEmb), n2, none⟩
    ∧ (upload_document true fname docId (Except.ok text) provider_ok store_bad).outcome
      = UploadOutcome.uncaught eSt
    ∧ isTranslatedError
        (upload_document true fname docId (Except.ok text) provider_ok store_bad).outcome
      = false
    ∧ (upload_document true fname docId (Except.ok text) provider_ok store_bad).stored
      = none := by
  have hni : (chunk_text text 500).isEmpty = false :=
    List.isEmpty_eq_false.mpr hchunks
  have hbad : upload_document true fname docId (Except.ok text) provider_ok store_bad
      = ⟨UploadOutcome.uncaught eSt, n, none⟩ := by
    unfold upload_document
    rw [hname]
    simp only [if_true, hni, Bool.false_eq_true, if_false, hembed, hsb]
  refine ⟨?_, ?_, ?_, ?_, ?_⟩
  · unfold upload_document
    rw [hname]
    simp only [if_true]
  · unfold upload_document
    rw [hname]
    simp only [if_true, hni, Bool.false_eq_true, if_false, hpe]
  · rw [hbad]
  · rw [hbad]
    rfl
  · rw [hbad]

/-- C6 amended witness: a concrete upload exercising all three paths: a
parse failure becomes a 400 `HTTPException`, a failing embedding provider
becomes a 500 `HTTPException`, and a failing store write escapes
untranslated with nothing stored. -/
theorem upload_error_translation_witness :
    upload_document (V := Nat) true "r.txt" "d" (Except.error "bad bytes")
        (fun _ => Except.ok [(0, 7)]) (fun _ => Except.error "disk broke")
      = ⟨UploadOutcome.httpError 400 ("File parsing failed: " ++ "bad bytes"), 0, none⟩
    ∧ upload_document (V := Nat) true "r.txt" "d" (Except.ok ['h', 'i'])
        (fun _ => Except.error "quota") (fun _ => Except.error "disk broke")
      = ⟨UploadOutcome.httpError 500 ("Embedding failed: " ++ "quota"), 1, none⟩
    ∧ (upload_document (V := Nat) true "r.txt" "d" (Except.ok ['h', 'i'])
        (fun _ => Except.ok [(0, 7)]) (fun _ => Except.error "disk broke")).outcome
      = UploadOutcome.uncaught "disk broke"
    ∧ isTranslatedError
        (upload_document (V := Nat) true "r.txt" "d" (Except.ok ['h', 'i'])
          (fun _ => Except.ok [(0, 7)]) (fun _ => Except.error "disk broke")).outcome
      = false
    ∧ (upload_document (V := Nat) true "r.txt" "d" (Except.ok ['h', 'i'])
        (fun _ => Except.ok [(0, 7)]) (fun _ => Except.error "disk broke")).stored
      = none :=
  upload_error_translation "r.txt" "d" ['h', 'i'] "bad bytes" "quota" "disk broke"
    (fun _ => Except.ok [(0, 7)]) (fun _ => Except.error "quota")
    (fun _ => Except.error "disk broke") [7] 1 1
    (by decide) (by decide) rfl rfl (fun _ => rfl)

/-- C7: whenever the extracted text of an accepted file chunks to the
empty sequence, ingestion fails with the client-visible 400
"No text found to index." error, zero embedding-API calls are made and
nothing is written to the vector store. -/
theorem upload_empty_document {V : Type} (fname docId : String)
    (text : List Char)
    (provider : List (List Char) → Except String (List (Nat × V)))
    (store : StoreCall V → Except String Unit)
    (hname : (endswith fname ".pdf" || endswith fname ".txt") = true)
    (hempty : chunk_text text 500 = []) :
    upload_document true fname docId (Except.ok text) provider store
      = ⟨UploadOutcome.httpError 400 "No text found to index.", 0, none⟩ := by
  unfold upload_document
  rw [hname]
  simp only [if_true, hempty, List.isEmpty_nil, if_true]

/-- C7 witness: uploading a text file that parses to the empty string
fails with the 400 "No text found to index." error after zero embedding
calls and zero store writes. -/
theorem upload_empty_document_witness :
    upload_document (V := Nat) true "empty.txt" "d" (Except.ok [])
        (fun _ => Except.ok []) (fun _ => Except.ok ())
      = ⟨UploadOutcome.httpError 400 "No text found to index.", 0, none⟩ :=
  upload_empty_document "empty.txt" "d" []
    (fun _ => Except.ok []) (fun _ => Except.ok ()) (by decide) (by decide)

/-- C8: a question asked against an empty vector store (the similarity
query returns zero records) does not fail: the pipeline proceeds with an
empty context block and returns a well-formed success result with an
answer text and an empty evidence list. -/
theorem ask_question_empty_store {V : Type} (query a : String)
    (provider : List String → Except String (List (Nat × V)))
    (search : V → Except String (List String))
    (llm : String → Except String String) (qe : V) (rest : List V)
    (hq : (embed_chunks_openai true provider [query]).1
      = Except.ok (qe :: rest))
    (hsearch : search qe = Except.ok [])
    (hllm : llm (ragPrompt "" query) = Except.ok a) :
    ask_question true query provider search llm
      = AskOutcome.success ⟨a.trim, [], ragPrompt "" query,
          "Answer generated using retrieved context."⟩ := by
  unfold ask_question
  rw [hq]
  simp only [if_true, List.head?_cons]
  rw [hsearch]
  simp only [String.intercalate]
  rw [hllm]

/-- C8 witness: a concrete question against an empty store yields a
success result with trimmed answer text and empty evidence. -/
theorem ask_question_empty_store_witness :
    ask_question (V := Nat) true "what?"
        (fun _ => Except.ok [(0, 1)]) (fun _ => Except.ok [])
        (fun _ => Except.ok " no info ")
      = AskOutcome.success ⟨" no info ".trim, [], ragPrompt "" "what?",
          "Answer generated using retrieved context."⟩ :=
  ask_question_empty_store "what?" " no info "
    (fun _ => Except.ok [(0, 1)]) (fun _ => Except.ok [])
    (fun _ => Except.ok " no info ") 1 []
    rfl rfl rfl

/-- C9: for every query and every retrieved chunk list, the assembled
prompt is exactly the fixed instruction text followed by the context
block (the chunk texts joined in retrieval order by the literal separator
`"\n---\n"`), the literal question, and the answer cue; this prompt is
the `llm_context` field returned to the caller. -/
theorem ask_question_prompt_literal {V : Type} (query a : String)
    (cs : List String)
    (provider : List String → Except String (List (Nat × V)))
    (search : V → Except String (List String))
    (llm : String → Except String String) (qe : V) (rest : List V)
    (hq : (embed_chunks_openai true provider [query]).1
      = Except.ok (qe :: rest))
    (hsearch : search qe = Except.ok cs)
    (hllm : llm (ragPrompt (String.intercalate "\n---\n" cs) query)
      = Except.ok a) :
    ask_question true query provider search llm
      = AskOutcome.success ⟨a.trim, cs,
          "You are an expert assistant. Given the following context chunks (from user files) and a question, give a concise answer based strictly on the context. Cite text by quoting or listing sources if helpful.\n\nContext Chunks:\n"
            ++ String.intercalate "\n---\n" cs
            ++ "\n\nQuestion:\n" ++ query ++ "\n\nAnswer:",
          "Answer generated using retrieved context."⟩ := by
  unfold ask_question
  rw [hq]
  simp only [if_true, List.head?_cons]
  rw [hsearch]
  dsimp only
  rw [hllm]
  rfl

/-- C9 witness: asking `"q?"` with two retrieved chunks produces a
success whose `llm_context` is the instruction text, the two chunks
joined by the separator, and the question, concatenated literally. -/
theorem ask_question_prompt_literal_witness :
    ask_question (V := Nat) true "q?"
        (fun _ => Except.ok [(0, 1)]) (fun _ => Except.ok ["c1", "c2"])
        (fun _ => Except.ok "ans")
      = AskOutcome.success ⟨"ans".trim, ["c1", "c2"],
          "You are an expert assistant. Given the following context chunks (from user files) and a question, give a concise answer based strictly on the context. Cite text by quoting or listing sources if helpful.\n\nContext Chunks:\n"
            ++ String.intercalate "\n---\n" ["c1", "c2"]
            ++ "\n\nQuestion:\n" ++ "q?" ++ "\n\nAnswer:",
          "Answer generated using retrieved context."⟩ :=
  ask_question_prompt_literal "q?" "ans" ["c1", "c2"]
    (fun _ => Except.ok [(0, 1)]) (fun _ => Except.ok ["c1", "c2"])
    (fun _ => Except.ok "ans") 1 []
    rfl rfl rfl

/-- A list that is a permutation of a strictly index-sorted list and is
itself weakly index-sorted equals it: with pairwise-distinct indices the
sorted arrangement is unique. -/
theorem eq_of_perm_of_sorted_idx {V : Type} :
    ∀ (c l : List (Nat × V)), l.Perm c → l.Pairwise idxLe →
      c.Pairwise (fun a b => a.1 < b.1) → l = c := by
  intro c
  induction c with
  | nil =>
    intro l hp _ _
    exact hp.eq_nil
  | cons x t ih =>
    intro l hp hl hc
    cases l with
    | nil =>
      have hlen := hp.length_eq
      simp at hlen
    | cons y l' =>
      have hyx : y = x := by
        by_contra hne
        have hy : y ∈ x :: t := hp.mem_iff.mp (List.mem_cons_self y l')
        have hyt : y ∈ t := by
          rcases List.mem_cons.mp hy with h | h
          · exact absurd h hne
          · exact h
        have hx : x ∈ y :: l' := hp.mem_iff.mpr (List.mem_cons_self x t)
        have hxl' : x ∈ l' := by
          rcases List.mem_cons.mp hx with h | h
          · exact absurd h.symm hne
          · exact h
        have h1 : x.1 < y.1 := (List.pairwise_cons.mp hc).1 y hyt
        have h2 : y.1 ≤ x.1 := (List.pairwise_cons.mp hl).1 x hxl'
        omega
      subst hyx
      have hp' : l'.Perm t := hp.cons_inv
      have ht := ih l' hp' (List.pairwise_cons.mp hl).2 (List.pairwise_cons.mp hc).2
      rw [ht]

/-- The provider-assigned indices of an enumerated list are strictly
increasing. -/
theorem enum_pairwise_lt {α : Type} (l : List α) :
    l.enum.Pairwise (fun a b : Nat × α => a.1 < b.1) := by
  have h : (l.enum.map Prod.fst).Pairwise (fun a b : Nat => a < b) := by
    rw [List.enum_map_fst]
    exact List.pairwise_lt_range l.length
  exact List.pairwise_map.mp h

/-- Re-sorting any shuffled provider response by the provider-assigned
index recovers the canonical enumeration. -/
theorem sortByIndex_of_perm_enum {α V : Type} (f : α → V) (b : List α)
    (r : List (Nat × V)) (hperm : r.Perm ((b.map f).enum)) :
    sortByIndex r = (b.map f).enum :=
  eq_of_perm_of_sorted_idx ((b.map f).enum) (sortByIndex r)
    ((List.perm_insertionSort idxLe r).trans hperm)
    (List.sorted_insertionSort idxLe r)
    (enum_pairwise_lt (b.map f))

/-- When every provider batch response is a shuffle of the correctly
indexed embeddings of that batch, the batch loop returns the embeddings
of all batches concatenated in input order. -/
theorem embedBatches_map {T V : Type} (f : T → V)
    (provider : List T → Except String (List (Nat × V)))
    (hp : ∀ b, ∃ r, provider b = Except.ok r ∧ r.Perm ((b.map f).enum)) :
    ∀ bs : List (List T),
      (embedBatches provider bs).1
        = Except.ok ((bs.map (fun b => b.map f)).flatten) := by
  intro bs
  induction bs with
  | nil => rfl
  | cons b rest ih =>
    obtain ⟨r, hr, hperm⟩ := hp b
    unfold embedBatches
    rw [hr]
    rcases hrest : embedBatches provider rest with ⟨res, n⟩
    rw [hrest] at ih
    cases res with
    | error e => simp at ih
    | ok vs =>
      simp only [Except.ok.injEq] at ih
      dsimp only
      rw [sortByIndex_of_perm_enum f b r hperm]
      simp [List.enum_map_snd, ih]

/-- Mapping the embedding function commutes with batching. -/
theorem batchesOf_map {T V : Type} (f : T → V) (n : Nat) (l : List T) :
    (batchesOf n l).map (fun b => b.map f) = batchesOf n (l.map f) := by
  unfold batchesOf
  rw [List.length_map, List.map_map]
  have hcomp : (fun b => List.map f b) ∘ (fun k => (l.drop (k * n)).take n)
      = fun k => ((l.map f).drop (k * n)).take n := by
    funext k
    simp only [Function.comp_apply]
    rw [List.map_take, List.map_drop]
  rw [hcomp]

/-- Concatenating the batches of at most `n ≥ 1` items restores the
input list. -/
theorem flatten_batchesOf {α : Type} (n : Nat) (hn : 0 < n) (l : List α) :
    (batchesOf n l).flatten = l := by
  unfold batchesOf
  rw [flatten_map_take]
  have he : l.length + (n - 1) = l.length + n - 1 := by omega
  rw [he]
  exact List.take_of_length_le (le_ceil_mul hn)

/-- C5: `embed_chunks_openai` preserves length and order: whenever each
provider batch response is some permutation of the correctly indexed
embeddings of that batch (`f` being the embedding the provider computes
per text), the result is exactly the input list mapped through `f` — the
i-th output vector belongs to the i-th input text, independent of the
splitting into batches of at most 20 and of any within-batch response
shuffling, because each response is re-sorted by the provider-assigned
index before concatenation. -/
theorem embed_chunks_preserve_order {T V : Type} (f : T → V)
    (provider : List T → Except String (List (Nat × V)))
    (chunks : List T)
    (hp : ∀ b, ∃ r, provider b = Except.ok r ∧ r.Perm ((b.map f).enum)) :
    (embed_chunks_openai true provider chunks).1
      = Except.ok (chunks.map f) := by
  unfold embed_chunks_openai
  simp only [if_true]
  rw [embedBatches_map f provider hp (batchesOf 20 chunks)]
  rw [batchesOf_map, flatten_batchesOf 20 (by norm_num)]

/-- C5 witness: a provider that reverses each batch response still yields
the embeddings (here: string lengths) in input order. -/
theorem embed_chunks_preserve_order_witness :
    (embed_chunks_openai (T := String) (V := Nat) true
        (fun b => Except.ok ((b.map String.length).enum.reverse))
        ["a", "bb", "ccc"]).1
      = Except.ok (["a", "bb", "ccc"].map String.length) :=
  embed_chunks_preserve_order String.length
    (fun b => Except.ok ((b.map String.length).enum.reverse))
    ["a", "bb", "ccc"]
    (fun b => ⟨(b.map String.length).enum.reverse, rfl, List.reverse_perm _⟩)
